import Mathlib

/-!
Shallow embedding of the on-chain listing/settlement ledger of
`contracts/DataHiveMarket.sol` (contract `DataHiveMarket`).

Modelling conventions:
* `uint256` and `address` values are modelled as `Nat` (the zero address is
  `0`).  Solidity 0.8 uses checked arithmetic, so no wrap-around is possible:
  every subtraction in the contract is dominated by an explicit guard
  (`msg.value >= price`, `fee <= price` whenever `platformFee <= 10000`), and
  counter/product overflow at `2^256` is unreachable for the quantities the
  claims are about, so arithmetic is exact over `Nat`.
* Storage mapping `listings` is a total function `Nat -> Listing` with the
  Solidity default struct as default value, exactly as an EVM mapping behaves.
* The OpenZeppelin `Ownable` base supplies `owner` and the `onlyOwner`
  modifier (revert `OwnableUnauthorizedAccount` when the caller is not the
  owner, checked before the function body); the OpenZeppelin
  `ReentrancyGuard` base supplies the `nonReentrant` modifier (revert
  `ReentrancyGuardReentrantCall` when `_status == ENTERED`).  These imported
  bases are modelled by the `owner` field, the `entered` flag, and the
  `Unauthorized` / `Reentrant` error kinds.
* An external low-level call `recipient.call{value: v}("")` succeeds or fails
  depending on code at the recipient; this environment choice is modelled by an
  oracle `env : Nat -> Nat -> Bool` (recipient, amount -> success).
* A `require` failure reverts the whole call in the EVM: every state write made
  earlier in the same call is undone.  The operations therefore return
  `Except MarketError ...`; the transaction-level wrappers (`buyItemTx`,
  `applyOp`) interpret an error as "state unchanged", which is exactly the
  EVM revert semantics.
-/

/-- The `Listing` struct of the contract (storage layout fields in order). -/
structure Listing where
  contentCID : String
  price : Nat
  seller : Nat
  itemType : Nat
  active : Bool
  timestamp : Nat
deriving Repr, DecidableEq

/-- The Solidity default value of the `Listing` struct, returned by the
`listings` mapping for any key that was never written. -/
def emptyListing : Listing :=
  { contentCID := "", price := 0, seller := 0, itemType := 0
    active := false, timestamp := 0 }

/-- The contract storage: the `listings` mapping, `listingCount`,
`platformFee`, `feeRecipient`, the `Ownable` owner slot and the
`ReentrancyGuard` status flag (`entered = true` iff `_status == ENTERED`). -/
structure MarketState where
  listings : Nat → Listing
  listingCount : Nat
  platformFee : Nat
  feeRecipient : Nat
  owner : Nat
  entered : Bool

/-- State established by the constructor: `Ownable(msg.sender)` sets the
owner, `feeRecipient = payable(msg.sender)`, `platformFee = 250`,
`listingCount = 0`, all mapping slots at their default. -/
def initState (deployer : Nat) : MarketState :=
  { listings := fun _ => emptyListing
    listingCount := 0
    platformFee := 250
    feeRecipient := deployer
    owner := deployer
    entered := false }

/-- Distinguishable failure kinds of the contract: one per `require` string,
plus the kinds raised by the imported OpenZeppelin bases
(`Unauthorized` for `OwnableUnauthorizedAccount`, `Reentrant` for
`ReentrancyGuardReentrantCall`). -/
inductive MarketError where
  | InvalidPrice
  | InvalidItemKind
  | InvalidListingId
  | ListingNotActive
  | InsufficientPayment
  | SelfPurchaseForbidden
  | SellerTransferFailed
  | FeeTransferFailed
  | RefundFailed
  | ListingAlreadyInactive
  | Unauthorized
  | FeeRateTooHigh
  | InvalidRecipient
  | Reentrant
deriving Repr, DecidableEq

/-- The events the contract declares, with their fields in declared order. -/
inductive MarketEvent where
  | ItemListed (listingId seller : Nat) (contentCID : String)
      (price itemType timestamp : Nat)
  | ItemPurchased (listingId buyer seller price timestamp : Nat)
  | ListingDeactivated (listingId seller timestamp : Nat)
  | PlatformFeeUpdated (oldFee newFee timestamp : Nat)
deriving Repr, DecidableEq

/-- `listItem(contentCID, _price, _itemType)`: requires `_price > 0`
("Price must be greater than 0") then `_itemType == 0 || _itemType == 1`
("Invalid item type"); increments `listingCount`, stores the new active
listing at the new id, emits `ItemListed`.  The Solidity function has no
return value; the allocated id (carried by the event and used as the storage
key) is returned here as the observable result. -/
def listItem (s : MarketState) (sender : Nat) (contentCID : String)
    (price itemType ts : Nat) :
    Except MarketError (MarketState × Nat × List MarketEvent) :=
  if price = 0 then .error .InvalidPrice
  else if itemType = 0 ∨ itemType = 1 then
    let newId := s.listingCount + 1
    let l : Listing :=
      { contentCID := contentCID, price := price, seller := sender
        itemType := itemType, active := true, timestamp := ts }
    .ok ({ s with
            listingCount := newId
            listings := fun i => if i = newId then l else s.listings i },
          newId,
          [.ItemListed newId sender contentCID price itemType ts])
  else .error .InvalidItemKind

/-- The contract state at the moment `buyItem` performs its first external
fund transfer: the `nonReentrant` guard has set `_status = ENTERED` and
step 1 has written `listing.active = false`; nothing else has changed. -/
def buyItemInterState (s : MarketState) (listingId : Nat) : MarketState :=
  { s with
      entered := true
      listings := fun i =>
        if i = listingId then { s.listings listingId with active := false }
        else s.listings i }

/-- `buyItem(_listingId)` with `msg.value = payment`, guarded `nonReentrant`.
Checks, in source order: the reentrancy guard, `_listingId > 0 &&
_listingId <= listingCount`, `listing.active`, `msg.value >= listing.price`,
`msg.sender != listing.seller`.  Then marks the listing inactive, computes
`fee = listing.price * platformFee / 10000` and `sellerAmount = price - fee`,
transfers `sellerAmount` to the seller, the fee (only if `fee > 0`) to the
fee recipient, and the excess (only if `msg.value > price`) back to the
buyer, failing on the corresponding `require` if a transfer reports failure;
finally emits `ItemPurchased` and clears the guard.  Outbound transfers are
returned as a `(recipient, amount)` list in call order. -/
def buyItem (env : Nat → Nat → Bool) (s : MarketState)
    (sender payment listingId ts : Nat) :
    Except MarketError (MarketState × List (Nat × Nat) × List MarketEvent) :=
  if s.entered = true then .error .Reentrant
  else
    let listing := s.listings listingId
    if ¬(0 < listingId ∧ listingId ≤ s.listingCount) then .error .InvalidListingId
    else if listing.active = false then .error .ListingNotActive
    else if payment < listing.price then .error .InsufficientPayment
    else if sender = listing.seller then .error .SelfPurchaseForbidden
    else
      let s1 := buyItemInterState s listingId
      let fee := listing.price * s.platformFee / 10000
      let sellerAmount := listing.price - fee
      if env listing.seller sellerAmount = false then .error .SellerTransferFailed
      else if 0 < fee ∧ env s.feeRecipient fee = false then .error .FeeTransferFailed
      else if listing.price < payment ∧ env sender (payment - listing.price) = false then
        .error .RefundFailed
      else
        .ok ({ s1 with entered := false },
              (listing.seller, sellerAmount) ::
                ((if 0 < fee then [(s.feeRecipient, fee)] else []) ++
                  (if listing.price < payment then [(sender, payment - listing.price)] else [])),
              [.ItemPurchased listingId sender listing.seller listing.price ts])

/-- `deactivateListing(_listingId)`: requires a valid id, an active listing,
and `msg.sender == listing.seller || msg.sender == owner()`; sets
`active = false` and emits `ListingDeactivated`. -/
def deactivateListing (s : MarketState) (sender listingId ts : Nat) :
    Except MarketError (MarketState × List MarketEvent) :=
  if ¬(0 < listingId ∧ listingId ≤ s.listingCount) then .error .InvalidListingId
  else
    let listing := s.listings listingId
    if listing.active = false then .error .ListingAlreadyInactive
    else if ¬(sender = listing.seller ∨ sender = s.owner) then .error .Unauthorized
    else
      .ok ({ s with
              listings := fun i =>
                if i = listingId then { listing with active := false }
                else s.listings i },
            [.ListingDeactivated listingId listing.seller ts])

/-- `updatePlatformFee(_newFee)`, `onlyOwner`: the `Ownable` modifier check
runs first, then `require(_newFee <= 1000)` ("Fee cannot exceed 10%");
stores the new fee and emits `PlatformFeeUpdated(oldFee, newFee, ts)`. -/
def updatePlatformFee (s : MarketState) (sender newFee ts : Nat) :
    Except MarketError (MarketState × List MarketEvent) :=
  if sender ≠ s.owner then .error .Unauthorized
  else if 1000 < newFee then .error .FeeRateTooHigh
  else .ok ({ s with platformFee := newFee },
            [.PlatformFeeUpdated s.platformFee newFee ts])

/-- `updateFeeRecipient(_newRecipient)`, `onlyOwner`: the `Ownable` modifier
check runs first, then `require(_newRecipient != address(0))`
("Invalid address"); stores the new recipient.  The function body contains
no `emit` statement, so the event list of a successful call is empty. -/
def updateFeeRecipient (s : MarketState) (sender newRecipient : Nat) :
    Except MarketError (MarketState × List MarketEvent) :=
  if sender ≠ s.owner then .error .Unauthorized
  else if newRecipient = 0 then .error .InvalidRecipient
  else .ok ({ s with feeRecipient := newRecipient }, [])

/-- `getListing(_listingId)` (read-only): requires a valid id, returns the
full record regardless of its active flag. -/
def getListing (s : MarketState) (listingId : Nat) : Except MarketError Listing :=
  if ¬(0 < listingId ∧ listingId ≤ s.listingCount) then .error .InvalidListingId
  else .ok (s.listings listingId)

/-- `getActiveListingsCount()` (read-only): counts ids `1..listingCount`
whose listing is active. -/
def getActiveListingsCount (s : MarketState) : Nat :=
  ((List.range' 1 s.listingCount).filter (fun i => (s.listings i).active)).length

/-- One state-changing entry-point invocation, with its caller-supplied
arguments (and, for `buyItem`, the external-call outcome oracle). -/
inductive MarketOp where
  | listOp (sender : Nat) (contentCID : String) (price itemType ts : Nat)
  | buyOp (env : Nat → Nat → Bool) (sender payment listingId ts : Nat)
  | deactivateOp (sender listingId ts : Nat)
  | feeOp (sender newFee ts : Nat)
  | recipientOp (sender newRecipient : Nat)

/-- Transaction-level effect of one entry-point call on storage: a successful
call commits its new state, a reverted call leaves storage exactly as it was
(EVM revert semantics). -/
def applyOp (s : MarketState) : MarketOp → MarketState
  | .listOp sender cid price itemType ts =>
      match listItem s sender cid price itemType ts with
      | .ok (s', _, _) => s'
      | .error _ => s
  | .buyOp env sender payment listingId ts =>
      match buyItem env s sender payment listingId ts with
      | .ok (s', _, _) => s'
      | .error _ => s
  | .deactivateOp sender listingId ts =>
      match deactivateListing s sender listingId ts with
      | .ok (s', _) => s'
      | .error _ => s
  | .feeOp sender newFee ts =>
      match updatePlatformFee s sender newFee ts with
      | .ok (s', _) => s'
      | .error _ => s
  | .recipientOp sender newRecipient =>
      match updateFeeRecipient s sender newRecipient with
      | .ok (s', _) => s'
      | .error _ => s

/-- Run a sequence of entry-point calls (each one atomic: commit or revert). -/
def runOps (s : MarketState) : List MarketOp → MarketState
  | [] => s
  | op :: ops => runOps (applyOp s op) ops

/-- Transaction-level view of a `buyItem` call: committed state, outbound
transfers, emitted events, and the failure kind if the call reverted.  A
reverted call leaves storage unchanged, moves no funds and emits nothing. -/
def buyItemTx (env : Nat → Nat → Bool) (s : MarketState)
    (sender payment listingId ts : Nat) :
    MarketState × List (Nat × Nat) × List MarketEvent × Option MarketError :=
  match buyItem env s sender payment listingId ts with
  | .ok (s', tr, ev) => (s', tr, ev, none)
  | .error e => (s, [], [], some e)

/-- Inversion of a successful `buyItem` call: every `require` held, and the
committed state, transfer list and event list have the shapes written in the
function body. -/
theorem buyItem_ok_inv {env : Nat → Nat → Bool} {s : MarketState}
    {sender payment listingId ts : Nat} {s' : MarketState}
    {tr : List (Nat × Nat)} {ev : List MarketEvent}
    (h : buyItem env s sender payment listingId ts = .ok (s', tr, ev)) :
    s.entered = false ∧ 0 < listingId ∧ listingId ≤ s.listingCount ∧
    (s.listings listingId).active = true ∧
    (s.listings listingId).price ≤ payment ∧
    sender ≠ (s.listings listingId).seller ∧
    s' = { buyItemInterState s listingId with entered := false } ∧
    tr = ((s.listings listingId).seller,
            (s.listings listingId).price
              - (s.listings listingId).price * s.platformFee / 10000) ::
          ((if 0 < (s.listings listingId).price * s.platformFee / 10000 then
              [(s.feeRecipient, (s.listings listingId).price * s.platformFee / 10000)]
            else []) ++
            (if (s.listings listingId).price < payment then
              [(sender, payment - (s.listings listingId).price)]
            else [])) ∧
    ev = [.ItemPurchased listingId sender (s.listings listingId).seller
            (s.listings listingId).price ts] := by
  simp only [buyItem] at h
  split at h
  · exact Except.noConfusion h
  next hent =>
    split at h
    · exact Except.noConfusion h
    next hid =>
      split at h
      · exact Except.noConfusion h
      next hact =>
        split at h
        · exact Except.noConfusion h
        next hpay =>
          split at h
          · exact Except.noConfusion h
          next hself =>
            split at h
            · exact Except.noConfusion h
            next hseller =>
              split at h
              · exact Except.noConfusion h
              next hfee =>
                split at h
                · exact Except.noConfusion h
                next hrefund =>
                  injection h with h
                  simp only [Prod.mk.injEq] at h
                  obtain ⟨rfl, rfl, rfl⟩ := h
                  push_neg at hid
                  refine ⟨by simpa using hent, hid.1, hid.2,
                    by simpa using hact, Nat.not_lt.mp hpay, hself,
                    rfl, rfl, rfl⟩

/-- The fee never exceeds the price as long as the fee rate does not exceed
10000 basis points; in reachable states the rate is at most 1000 (see
`runOps_platformFee_le`). -/
theorem fee_le_price {price pf : Nat} (hcap : pf ≤ 10000) :
    price * pf / 10000 ≤ price := by
  calc price * pf / 10000 ≤ price * 10000 / 10000 :=
        Nat.div_le_div_right (Nat.mul_le_mul_left price hcap)
    _ = price := Nat.mul_div_cancel price (by norm_num)

/-- Inversion of a successful `listItem` call: the price and kind checks
held, the allocated id is `listingCount + 1`, and the committed state stores
the new active listing at that id. -/
theorem listItem_ok_inv {s : MarketState} {sender : Nat} {cid : String}
    {price itemType ts : Nat} {s' : MarketState} {newId : Nat}
    {ev : List MarketEvent}
    (h : listItem s sender cid price itemType ts = .ok (s', newId, ev)) :
    0 < price ∧ (itemType = 0 ∨ itemType = 1) ∧ newId = s.listingCount + 1 ∧
    s' = { s with
            listingCount := s.listingCount + 1
            listings := fun i =>
              if i = s.listingCount + 1 then
                { contentCID := cid, price := price, seller := sender
                  itemType := itemType, active := true, timestamp := ts }
              else s.listings i } ∧
    ev = [.ItemListed (s.listingCount + 1) sender cid price itemType ts] := by
  simp only [listItem] at h
  split at h
  · exact Except.noConfusion h
  next hp =>
    split at h
    next hk =>
      injection h with h
      simp only [Prod.mk.injEq] at h
      obtain ⟨rfl, rfl, rfl⟩ := h
      exact ⟨Nat.pos_of_ne_zero hp, hk, rfl, rfl, rfl⟩
    · exact Except.noConfusion h

/-- Inversion of a successful `deactivateListing` call. -/
theorem deactivateListing_ok_inv {s : MarketState} {sender listingId ts : Nat}
    {s' : MarketState} {ev : List MarketEvent}
    (h : deactivateListing s sender listingId ts = .ok (s', ev)) :
    0 < listingId ∧ listingId ≤ s.listingCount ∧
    (s.listings listingId).active = true ∧
    (sender = (s.listings listingId).seller ∨ sender = s.owner) ∧
    s' = { s with
            listings := fun i =>
              if i = listingId then { s.listings listingId with active := false }
              else s.listings i } ∧
    ev = [.ListingDeactivated listingId (s.listings listingId).seller ts] := by
  simp only [deactivateListing] at h
  split at h
  · exact Except.noConfusion h
  next hid =>
    split at h
    · exact Except.noConfusion h
    next hact =>
      split at h
      · exact Except.noConfusion h
      next hauth =>
        injection h with h
        simp only [Prod.mk.injEq] at h
        obtain ⟨rfl, rfl⟩ := h
        push_neg at hid
        exact ⟨hid.1, hid.2, by simpa using hact, not_not.mp hauth, rfl, rfl⟩

/-- Inversion of a successful `updatePlatformFee` call. -/
theorem updatePlatformFee_ok_inv {s : MarketState} {sender newFee ts : Nat}
    {s' : MarketState} {ev : List MarketEvent}
    (h : updatePlatformFee s sender newFee ts = .ok (s', ev)) :
    sender = s.owner ∧ newFee ≤ 1000 ∧
    s' = { s with platformFee := newFee } ∧
    ev = [.PlatformFeeUpdated s.platformFee newFee ts] := by
  simp only [updatePlatformFee] at h
  split at h
  · exact Except.noConfusion h
  next hown =>
    split at h
    · exact Except.noConfusion h
    next hcap =>
      injection h with h
      simp only [Prod.mk.injEq] at h
      obtain ⟨rfl, rfl⟩ := h
      exact ⟨not_not.mp hown, Nat.not_lt.mp hcap, rfl, rfl⟩

/-- Inversion of a successful `updateFeeRecipient` call: the caller is the
owner, the recipient is non-zero, only `feeRecipient` changes, and no event
is emitted. -/
theorem updateFeeRecipient_ok_inv {s : MarketState} {sender newRecipient : Nat}
    {s' : MarketState} {ev : List MarketEvent}
    (h : updateFeeRecipient s sender newRecipient = .ok (s', ev)) :
    sender = s.owner ∧ newRecipient ≠ 0 ∧
    s' = { s with feeRecipient := newRecipient } ∧ ev = [] := by
  simp only [updateFeeRecipient] at h
  split at h
  · exact Except.noConfusion h
  next hown =>
    split at h
    · exact Except.noConfusion h
    next hz =>
      injection h with h
      simp only [Prod.mk.injEq] at h
      obtain ⟨rfl, rfl⟩ := h
      exact ⟨not_not.mp hown, hz, rfl, rfl⟩

/-- One entry-point call preserves the fee-rate cap `platformFee <= 1000`. -/
theorem applyOp_platformFee_le {s : MarketState} (hs : s.platformFee ≤ 1000)
    (op : MarketOp) : (applyOp s op).platformFee ≤ 1000 := by
  cases op with
  | listOp sender cid price itemType ts =>
    simp only [applyOp]
    rcases hr : listItem s sender cid price itemType ts with e | ⟨s', newId, ev⟩
    · exact hs
    · obtain ⟨-, -, -, rfl, -⟩ := listItem_ok_inv hr
      exact hs
  | buyOp env sender payment listingId ts =>
    simp only [applyOp]
    rcases hr : buyItem env s sender payment listingId ts with e | ⟨s', tr, ev⟩
    · exact hs
    · obtain ⟨-, -, -, -, -, -, rfl, -, -⟩ := buyItem_ok_inv hr
      exact hs
  | deactivateOp sender listingId ts =>
    simp only [applyOp]
    rcases hr : deactivateListing s sender listingId ts with e | ⟨s', ev⟩
    · exact hs
    · obtain ⟨-, -, -, -, rfl, -⟩ := deactivateListing_ok_inv hr
      exact hs
  | feeOp sender newFee ts =>
    simp only [applyOp]
    rcases hr : updatePlatformFee s sender newFee ts with e | ⟨s', ev⟩
    · exact hs
    · obtain ⟨-, hle, rfl, -⟩ := updatePlatformFee_ok_inv hr
      exact hle
  | recipientOp sender newRecipient =>
    simp only [applyOp]
    rcases hr : updateFeeRecipient s sender newRecipient with e | ⟨s', ev⟩
    · exact hs
    · obtain ⟨-, -, rfl, -⟩ := updateFeeRecipient_ok_inv hr
      exact hs

/-- Fee-rate cap holds in every reachable state: the constructor sets 250 and
`updatePlatformFee` enforces the 1000 cap. -/
theorem runOps_platformFee_le (d : Nat) (ops : List MarketOp) :
    (runOps (initState d) ops).platformFee ≤ 1000 := by
  have gen : ∀ (ops : List MarketOp) (s : MarketState), s.platformFee ≤ 1000 →
      (runOps s ops).platformFee ≤ 1000 := by
    intro ops
    induction ops with
    | nil => intro s hs; exact hs
    | cons op ops ih =>
      intro s hs
      exact ih (applyOp s op) (applyOp_platformFee_le hs op)
  exact gen ops (initState d) (by norm_num [initState])

/-- Claim C1: in every successful `buyItem(id, payment)` call the fee is
`floor(price * feeRateBps / 10000)` and the seller amount is `price - fee`
(these are literally the expressions the code computes, and the seller
transfer at the head of the returned transfer list carries `price - fee`),
so `sellerAmount + fee = price` exactly; the refund is `payment - price`, so
`payment - refund = price` exactly.  The hypothesis `platformFee <= 10000`
holds in every reachable state by `runOps_platformFee_le`. -/
theorem buyItem_conservation (env : Nat → Nat → Bool) (s : MarketState)
    (sender payment listingId ts : Nat) (s' : MarketState)
    (tr : List (Nat × Nat)) (ev : List MarketEvent)
    (hcap : s.platformFee ≤ 10000)
    (h : buyItem env s sender payment listingId ts = .ok (s', tr, ev)) :
    ((s.listings listingId).price
        - (s.listings listingId).price * s.platformFee / 10000)
      + (s.listings listingId).price * s.platformFee / 10000
      = (s.listings listingId).price ∧
    payment - (payment - (s.listings listingId).price)
      = (s.listings listingId).price ∧
    tr.head? = some ((s.listings listingId).seller,
        (s.listings listingId).price
          - (s.listings listingId).price * s.platformFee / 10000) := by
  obtain ⟨-, -, -, -, hple, -, -, htr, -⟩ := buyItem_ok_inv h
  refine ⟨Nat.sub_add_cancel (fee_le_price hcap), Nat.sub_sub_self hple, ?_⟩
  rw [htr]
  rfl

/-- Witness for `buyItem_conservation`: the spec scenario — fee rate 250,
price 500, payment 600; fee 12, seller amount 488, refund 100. -/
theorem buyItem_conservation_witness :
    ((applyOp (initState 1) (.listOp 5 "cid" 500 0 7)).platformFee ≤ 10000 ∧
      buyItem (fun _ _ => true)
        (applyOp (initState 1) (.listOp 5 "cid" 500 0 7)) 9 600 1 8 =
        .ok ({ buyItemInterState
                  (applyOp (initState 1) (.listOp 5 "cid" 500 0 7)) 1 with
                entered := false },
              [(5, 488), (1, 12), (9, 100)],
              [.ItemPurchased 1 9 5 500 8])) ∧
    (500 - 500 * 250 / 10000) + 500 * 250 / 10000 = 500 ∧
    (600 : Nat) - (600 - 500) = 500 := by
  have hcap : (applyOp (initState 1) (.listOp 5 "cid" 500 0 7)).platformFee
      ≤ 10000 := by norm_num [applyOp, listItem, initState]
  have h : buyItem (fun _ _ => true)
      (applyOp (initState 1) (.listOp 5 "cid" 500 0 7)) 9 600 1 8 =
      .ok ({ buyItemInterState
                (applyOp (initState 1) (.listOp 5 "cid" 500 0 7)) 1 with
              entered := false },
            [(5, 488), (1, 12), (9, 100)],
            [.ItemPurchased 1 9 5 500 8]) := rfl
  have hc := buyItem_conservation (fun _ _ => true)
      (applyOp (initState 1) (.listOp 5 "cid" 500 0 7)) 9 600 1 8 _ _ _ hcap h
  exact ⟨⟨hcap, h⟩, hc.1, hc.2.1⟩

/-- Claim C2: every failing `buyItem` call — whichever of the failure kinds
it raises, including `SellerTransferFailed` / `FeeTransferFailed` /
`RefundFailed`, which occur after step 1 has written `active = false` —
commits nothing: the post-transaction storage equals the pre-call storage,
no funds move and no event is emitted.  `buyItemTx` is the transaction-level
semantics of the call: the EVM reverts every write of the call frame when a
`require` fails. -/
theorem buyItem_failure_rollback (env : Nat → Nat → Bool) (s : MarketState)
    (sender payment listingId ts : Nat) (e : MarketError)
    (h : (buyItemTx env s sender payment listingId ts).2.2.2 = some e) :
    (buyItemTx env s sender payment listingId ts).1 = s ∧
    (buyItemTx env s sender payment listingId ts).2.1 = [] ∧
    (buyItemTx env s sender payment listingId ts).2.2.1 = [] := by
  simp only [buyItemTx] at h ⊢
  rcases hr : buyItem env s sender payment listingId ts with e' | ⟨s', tr, ev⟩
  · simp [hr]
  · rw [hr] at h
    exact Option.noConfusion h

/-- Witness for `buyItem_failure_rollback`: with an environment in which
every external transfer fails, buying the freshly listed item fails with
`SellerTransferFailed` — a failure after the listing was marked inactive in
step 1 — and the transaction leaves the state exactly as it was. -/
theorem buyItem_failure_rollback_witness :
    (buyItemTx (fun _ _ => false)
        (applyOp (initState 1) (.listOp 5 "cid" 500 0 7)) 9 600 1 8).2.2.2 =
      some .SellerTransferFailed ∧
    (buyItemTx (fun _ _ => false)
        (applyOp (initState 1) (.listOp 5 "cid" 500 0 7)) 9 600 1 8).1 =
      applyOp (initState 1) (.listOp 5 "cid" 500 0 7) ∧
    (buyItemTx (fun _ _ => false)
        (applyOp (initState 1) (.listOp 5 "cid" 500 0 7)) 9 600 1 8).2.1 = [] := by
  have h : (buyItemTx (fun _ _ => false)
      (applyOp (initState 1) (.listOp 5 "cid" 500 0 7)) 9 600 1 8).2.2.2 =
      some .SellerTransferFailed := rfl
  have hc := buyItem_failure_rollback (fun _ _ => false)
      (applyOp (initState 1) (.listOp 5 "cid" 500 0 7)) 9 600 1 8 _ h
  exact ⟨h, hc.1, hc.2.1⟩

/-- Counterexample to claim C3: the owner of a fresh deployment updates the
fee recipient to address 2; the call succeeds and its emitted-event list is
empty, so no `FeeRecipientUpdated` event (and no event carrying the old and
new recipient) is emitted.  The contract declares no such event and
the body of `updateFeeRecipient` contains no `emit` statement. -/
theorem updateFeeRecipient_no_event_cx :
    updateFeeRecipient (initState 1) 1 2 =
      .ok ({ initState 1 with feeRecipient := 2 }, ([] : List MarketEvent)) := rfl

/-- Claim C3 (amended): every successful `updateFeeRecipient(newRecipient)`
call updates the fee schedule (it sets `feeRecipient` to the new value and
changes nothing else) but emits no event. -/
theorem updateFeeRecipient_updates_silently (s : MarketState)
    (sender newRecipient : Nat) (hown : sender = s.owner)
    (hz : newRecipient ≠ 0) :
    updateFeeRecipient s sender newRecipient =
      .ok ({ s with feeRecipient := newRecipient }, ([] : List MarketEvent)) := by
  simp only [updateFeeRecipient, hown]
  rw [if_neg (by simp), if_neg hz]

/-- Witness for `updateFeeRecipient_updates_silently` at a concrete input. -/
theorem updateFeeRecipient_updates_silently_witness :
    (1 = (initState 1).owner ∧ (2 : Nat) ≠ 0) ∧
    updateFeeRecipient (initState 1) 1 2 =
      .ok ({ initState 1 with feeRecipient := 2 }, ([] : List MarketEvent)) :=
  ⟨⟨rfl, by decide⟩,
    updateFeeRecipient_updates_silently (initState 1) 1 2 rfl (by decide)⟩

/-- Counterexample to claim C4: with a state-changing entry point in
progress (the `ReentrancyGuard` status flag is `ENTERED`, exactly the
situation of a nested call issued from a transfer callback inside
`buyItem`), a nested `listItem` call does not fail with `Reentrant` — it
succeeds and stores a listing, because in the contract only `buyItem`
carries the `nonReentrant` modifier. -/
theorem nested_listItem_succeeds_cx :
    ({ initState 1 with entered := true } : MarketState).entered = true ∧
    listItem { initState 1 with entered := true } 5 "cid" 10 0 3 =
      .ok ({ initState 1 with
              entered := true
              listingCount := 1
              listings := fun i =>
                if i = 1 then
                  { contentCID := "cid", price := 10, seller := 5
                    itemType := 0, active := true, timestamp := 3 }
                else (initState 1).listings i },
            1, [.ItemListed 1 5 "cid" 10 0 3]) ∧
    listItem { initState 1 with entered := true } 5 "cid" 10 0 3 ≠
      .error .Reentrant := by
  refine ⟨rfl, rfl, fun h => ?_⟩
  rw [show listItem { initState 1 with entered := true } 5 "cid" 10 0 3 =
      .ok ({ initState 1 with
              entered := true
              listingCount := 1
              listings := fun i =>
                if i = 1 then
                  { contentCID := "cid", price := 10, seller := 5
                    itemType := 0, active := true, timestamp := 3 }
                else (initState 1).listings i },
            1, [.ItemListed 1 5 "cid" 10 0 3]) from rfl] at h
  exact Except.noConfusion h

/-- Claim C4 (amended): only `buyItem` carries a reentrancy guard.  A nested
`buyItem` call, issued while any guarded entry point is still executing
(guard flag set), fails fast with the dedicated `Reentrant` error before
reading any listing state; the remaining entry points (`listItem`,
`deactivateListing`, `updatePlatformFee`, `updateFeeRecipient`) have no
guard, as `nested_listItem_succeeds_cx` shows. -/
theorem buyItem_reentrancy_guard (env : Nat → Nat → Bool) (s : MarketState)
    (sender payment listingId ts : Nat) (h : s.entered = true) :
    buyItem env s sender payment listingId ts = .error .Reentrant := by
  unfold buyItem
  rw [if_pos h]

/-- Witness for `buyItem_reentrancy_guard` at a concrete locked state. -/
theorem buyItem_reentrancy_guard_witness :
    ({ initState 1 with entered := true } : MarketState).entered = true ∧
    buyItem (fun _ _ => true) { initState 1 with entered := true } 9 600 1 8 =
      .error .Reentrant :=
  ⟨rfl, buyItem_reentrancy_guard (fun _ _ => true)
    { initState 1 with entered := true } 9 600 1 8 rfl⟩

/-- Claim C5: during a `buyItem(id)` call the state visible to a
fund-transfer callback is `buyItemInterState s id` (the guard flag is set
and the listing is already inactive — step 1 runs before any external
transfer).  A nested `buyItem` on the same id at that state fails with
`Reentrant`; the listing it would read is inactive; and even with the guard
flag cleared the nested call fails with `ListingNotActive`.  Either way the
nested call reverts, so no purchase settles twice for the same id. -/
theorem buyItem_reentrancy_closed (env : Nat → Nat → Bool) (s : MarketState)
    (listingId sender payment ts : Nat)
    (hid : 0 < listingId) (hle : listingId ≤ s.listingCount) :
    buyItem env (buyItemInterState s listingId) sender payment listingId ts =
      .error .Reentrant ∧
    ((buyItemInterState s listingId).listings listingId).active = false ∧
    buyItem env { buyItemInterState s listingId with entered := false }
        sender payment listingId ts = .error .ListingNotActive := by
  refine ⟨?_, by simp [buyItemInterState], ?_⟩
  · unfold buyItem
    rw [if_pos (show (buyItemInterState s listingId).entered = true from rfl)]
  · simp [buyItem, buyItemInterState, hid, hle]

/-- Witness for `buyItem_reentrancy_closed`: the freshly listed item with
id 1; the nested purchase attempt at the mid-call state fails with
`Reentrant`, and with `ListingNotActive` once the guard flag is cleared. -/
theorem buyItem_reentrancy_closed_witness :
    (0 < 1 ∧ 1 ≤ (applyOp (initState 1) (.listOp 5 "cid" 500 0 7)).listingCount) ∧
    buyItem (fun _ _ => true)
        (buyItemInterState (applyOp (initState 1) (.listOp 5 "cid" 500 0 7)) 1)
        9 600 1 8 = .error .Reentrant ∧
    buyItem (fun _ _ => true)
        { buyItemInterState (applyOp (initState 1) (.listOp 5 "cid" 500 0 7)) 1
            with entered := false } 9 600 1 8 = .error .ListingNotActive :=
  ⟨⟨by decide, by decide⟩,
    (buyItem_reentrancy_closed (fun _ _ => true)
        (applyOp (initState 1) (.listOp 5 "cid" 500 0 7)) 1 9 600 8
        (by decide) (by decide)).1,
    (buyItem_reentrancy_closed (fun _ _ => true)
        (applyOp (initState 1) (.listOp 5 "cid" 500 0 7)) 1 9 600 8
        (by decide) (by decide)).2.2⟩

/-- One `listItem` request: the caller and the call arguments. -/
structure ListReq where
  sender : Nat
  contentCID : String
  price : Nat
  itemType : Nat
  ts : Nat

/-- Run a sequence of `listItem` calls, collecting the allocated ids in call
order; `none` as soon as one call fails. -/
def runListItems : MarketState → List ListReq → Option (MarketState × List Nat)
  | s, [] => some (s, [])
  | s, r :: rs =>
    match listItem s r.sender r.contentCID r.price r.itemType r.ts with
    | .ok (s', newId, _) =>
      match runListItems s' rs with
      | some (s'', ids) => some (s'', newId :: ids)
      | none => none
    | .error _ => none

/-- Successful `listItem` sequences allocate consecutive ids starting right
after the current counter, and advance the counter by exactly one per call. -/
theorem runListItems_ids {rs : List ListReq} :
    ∀ {s s' : MarketState} {ids : List Nat},
    runListItems s rs = some (s', ids) →
    ids = List.range' (s.listingCount + 1) rs.length ∧
    s'.listingCount = s.listingCount + rs.length := by
  induction rs with
  | nil =>
    intro s s' ids h
    simp only [runListItems, Option.some.injEq, Prod.mk.injEq] at h
    obtain ⟨rfl, rfl⟩ := h
    simp [List.range']
  | cons r rs ih =>
    intro s s' ids h
    simp only [runListItems] at h
    rcases hr : listItem s r.sender r.contentCID r.price r.itemType r.ts with
      e | ⟨s1, newId, ev⟩
    · rw [hr] at h
      exact Option.noConfusion h
    · rw [hr] at h
      dsimp only at h
      rcases hrun : runListItems s1 rs with _ | ⟨s2, ids2⟩
      · rw [hrun] at h
        exact Option.noConfusion h
      · rw [hrun] at h
        injection h with h
        simp only [Prod.mk.injEq] at h
        obtain ⟨rfl, rfl⟩ := h
        obtain ⟨-, -, hnew, hs1, -⟩ := listItem_ok_inv hr
        have hcount : s1.listingCount = s.listingCount + 1 := by rw [hs1]
        obtain ⟨hids2, hcount2⟩ := ih hrun
        subst hnew
        constructor
        · rw [hids2, hcount, List.length_cons, List.range'_succ]
        · rw [hcount2, hcount, List.length_cons]
          omega

/-- One entry-point call never decreases the listing counter. -/
theorem applyOp_listingCount_le (s : MarketState) (op : MarketOp) :
    s.listingCount ≤ (applyOp s op).listingCount := by
  cases op with
  | listOp sender cid price itemType ts =>
    simp only [applyOp]
    rcases hr : listItem s sender cid price itemType ts with e | ⟨s', newId, ev⟩
    · exact Nat.le_refl _
    · obtain ⟨-, -, -, rfl, -⟩ := listItem_ok_inv hr
      exact Nat.le_succ _
  | buyOp env sender payment listingId ts =>
    simp only [applyOp]
    rcases hr : buyItem env s sender payment listingId ts with e | ⟨s', tr, ev⟩
    · exact Nat.le_refl _
    · obtain ⟨-, -, -, -, -, -, rfl, -, -⟩ := buyItem_ok_inv hr
      exact Nat.le_refl _
  | deactivateOp sender listingId ts =>
    simp only [applyOp]
    rcases hr : deactivateListing s sender listingId ts with e | ⟨s', ev⟩
    · exact Nat.le_refl _
    · obtain ⟨-, -, -, -, rfl, -⟩ := deactivateListing_ok_inv hr
      exact Nat.le_refl _
  | feeOp sender newFee ts =>
    simp only [applyOp]
    rcases hr : updatePlatformFee s sender newFee ts with e | ⟨s', ev⟩
    · exact Nat.le_refl _
    · obtain ⟨-, -, rfl, -⟩ := updatePlatformFee_ok_inv hr
      exact Nat.le_refl _
  | recipientOp sender newRecipient =>
    simp only [applyOp]
    rcases hr : updateFeeRecipient s sender newRecipient with e | ⟨s', ev⟩
    · exact Nat.le_refl _
    · obtain ⟨-, -, rfl, -⟩ := updateFeeRecipient_ok_inv hr
      exact Nat.le_refl _

/-- Claim C6: from a fresh ledger, every all-successful sequence of
`listItem` calls allocates and returns exactly the ids `1, 2, 3, ...` in
order (no gaps, no repeats), the final counter equals the number of calls,
and across arbitrary entry-point calls the counter only ever increases, so
an id, once assigned, is never assigned again. -/
theorem listItem_monotonic_ids (d : Nat) (rs : List ListReq)
    (s' : MarketState) (ids : List Nat)
    (h : runListItems (initState d) rs = some (s', ids)) :
    ids = List.range' 1 rs.length ∧ ids.Nodup ∧
    s'.listingCount = rs.length ∧
    ∀ (s : MarketState) (op : MarketOp),
      s.listingCount ≤ (applyOp s op).listingCount := by
  obtain ⟨hids, hcount⟩ := runListItems_ids h
  refine ⟨by simpa [initState] using hids, ?_, by simpa [initState] using hcount,
    applyOp_listingCount_le⟩
  rw [hids]
  exact List.nodup_range' _ _

/-- Witness for `listItem_monotonic_ids`: three successful listings from a
fresh ledger return ids 1, 2, 3. -/
theorem listItem_monotonic_ids_witness :
    runListItems (initState 1)
        [⟨5, "a", 10, 0, 1⟩, ⟨6, "b", 20, 1, 2⟩, ⟨7, "c", 30, 0, 3⟩] =
      some (runOps (initState 1)
          [.listOp 5 "a" 10 0 1, .listOp 6 "b" 20 1 2, .listOp 7 "c" 30 0 3],
        [1, 2, 3]) ∧
    [1, 2, 3] = List.range' 1 3 ∧
    (runOps (initState 1)
        [.listOp 5 "a" 10 0 1, .listOp 6 "b" 20 1 2,
          .listOp 7 "c" 30 0 3]).listingCount = 3 := by
  have h : runListItems (initState 1)
      [⟨5, "a", 10, 0, 1⟩, ⟨6, "b", 20, 1, 2⟩, ⟨7, "c", 30, 0, 3⟩] =
      some (runOps (initState 1)
          [.listOp 5 "a" 10 0 1, .listOp 6 "b" 20 1 2, .listOp 7 "c" 30 0 3],
        [1, 2, 3]) := rfl
  have hc := listItem_monotonic_ids 1 _ _ _ h
  exact ⟨h, hc.1, hc.2.2.1⟩

/-- Once a listing with an assigned id is inactive, no single entry-point
call mutates its record: `listItem` only writes the fresh id
`listingCount + 1`, and `buyItem` / `deactivateListing` both require the
target to be active. -/
theorem applyOp_inactive_frame (s : MarketState) (op : MarketOp)
    (listingId : Nat) (_h0 : 0 < listingId) (hle : listingId ≤ s.listingCount)
    (hin : (s.listings listingId).active = false) :
    (applyOp s op).listings listingId = s.listings listingId := by
  cases op with
  | listOp sender cid price itemType ts =>
    simp only [applyOp]
    rcases hr : listItem s sender cid price itemType ts with e | ⟨s', newId, ev⟩
    · rfl
    · obtain ⟨-, -, -, rfl, -⟩ := listItem_ok_inv hr
      have hne : listingId ≠ s.listingCount + 1 := by omega
      simp [hne]
  | buyOp env sender payment targetId ts =>
    simp only [applyOp]
    rcases hr : buyItem env s sender payment targetId ts with e | ⟨s', tr, ev⟩
    · rfl
    · obtain ⟨-, -, -, hact, -, -, rfl, -, -⟩ := buyItem_ok_inv hr
      have hne : listingId ≠ targetId := by
        intro he
        rw [he] at hin
        rw [hin] at hact
        exact Bool.noConfusion hact
      simp [buyItemInterState, hne]
  | deactivateOp sender targetId ts =>
    simp only [applyOp]
    rcases hr : deactivateListing s sender targetId ts with e | ⟨s', ev⟩
    · rfl
    · obtain ⟨-, -, hact, -, rfl, -⟩ := deactivateListing_ok_inv hr
      have hne : listingId ≠ targetId := by
        intro he
        rw [he] at hin
        rw [hin] at hact
        exact Bool.noConfusion hact
      simp [hne]
  | feeOp sender newFee ts =>
    simp only [applyOp]
    rcases hr : updatePlatformFee s sender newFee ts with e | ⟨s', ev⟩
    · rfl
    · obtain ⟨-, -, rfl, -⟩ := updatePlatformFee_ok_inv hr
      rfl
  | recipientOp sender newRecipient =>
    simp only [applyOp]
    rcases hr : updateFeeRecipient s sender newRecipient with e | ⟨s', ev⟩
    · rfl
    · obtain ⟨-, -, rfl, -⟩ := updateFeeRecipient_ok_inv hr
      rfl

/-- Once inactive, the record of a listing survives any sequence of entry-point
calls unchanged. -/
theorem runOps_inactive_frame :
    ∀ (ops : List MarketOp) (s : MarketState) (listingId : Nat),
    0 < listingId → listingId ≤ s.listingCount →
    (s.listings listingId).active = false →
    (runOps s ops).listings listingId = s.listings listingId := by
  intro ops
  induction ops with
  | nil =>
    intro s listingId _ _ _
    rfl
  | cons op ops ih =>
    intro s listingId h0 hle hin
    have hframe := applyOp_inactive_frame s op listingId h0 hle hin
    have hle' : listingId ≤ (applyOp s op).listingCount :=
      le_trans hle (applyOp_listingCount_le s op)
    have hin' : ((applyOp s op).listings listingId).active = false := by
      rw [hframe]
      exact hin
    calc (runOps (applyOp s op) ops).listings listingId
        = (applyOp s op).listings listingId := ih (applyOp s op) listingId h0 hle' hin'
      _ = s.listings listingId := hframe

/-- Claim C7: a listing starts active at creation, and once its `active`
flag is false (purchase or deactivation) no sequence of entry-point calls
mutates its record any further — in particular the flag never returns to
true and no transition leaves the terminal state. -/
theorem listing_single_transition (s : MarketState) (ops : List MarketOp)
    (listingId : Nat) (h0 : 0 < listingId) (hle : listingId ≤ s.listingCount)
    (hin : (s.listings listingId).active = false) :
    (runOps s ops).listings listingId = s.listings listingId ∧
    ((runOps s ops).listings listingId).active = false ∧
    ∀ (sender : Nat) (cid : String) (price itemType ts : Nat)
      (s' : MarketState) (newId : Nat) (ev : List MarketEvent),
      listItem s sender cid price itemType ts = .ok (s', newId, ev) →
      (s'.listings newId).active = true := by
  refine ⟨runOps_inactive_frame ops s listingId h0 hle hin, ?_, ?_⟩
  · rw [runOps_inactive_frame ops s listingId h0 hle hin]
    exact hin
  · intro sender cid price itemType ts s' newId ev h
    obtain ⟨-, -, rfl, rfl, -⟩ := listItem_ok_inv h
    simp

/-- Witness for `listing_single_transition`: listing 1 is deactivated by its
seller; afterwards a purchase attempt and a fresh listing leave its record
untouched and inactive. -/
theorem listing_single_transition_witness :
    ((0 < 1 ∧
        1 ≤ (runOps (initState 1)
            [.listOp 5 "cid" 500 0 7, .deactivateOp 5 1 8]).listingCount) ∧
      ((runOps (initState 1)
          [.listOp 5 "cid" 500 0 7, .deactivateOp 5 1 8]).listings 1).active
        = false) ∧
    (runOps (runOps (initState 1) [.listOp 5 "cid" 500 0 7, .deactivateOp 5 1 8])
        [.buyOp (fun _ _ => true) 9 600 1 9, .listOp 6 "d" 10 1 10]).listings 1 =
      (runOps (initState 1)
        [.listOp 5 "cid" 500 0 7, .deactivateOp 5 1 8]).listings 1 := by
  have h1 : (0 : Nat) < 1 := by decide
  have h2 : 1 ≤ (runOps (initState 1)
      [.listOp 5 "cid" 500 0 7, .deactivateOp 5 1 8]).listingCount := by decide
  have h3 : ((runOps (initState 1)
      [.listOp 5 "cid" 500 0 7, .deactivateOp 5 1 8]).listings 1).active
      = false := by decide
  exact ⟨⟨⟨h1, h2⟩, h3⟩,
    (listing_single_transition _
      [.buyOp (fun _ _ => true) 9 600 1 9, .listOp 6 "d" 10 1 10]
      1 h1 h2 h3).1⟩

/-- Counterexample to claim C8: caller 5 is not the administrator of a fresh
deployment by actor 1; `updatePlatformFee(1001)` then fails with
`Unauthorized` (the `onlyOwner` check runs before the fee-cap check), not
with `FeeRateTooHigh`, so the rate-too-high call does not fail with
`FeeRateTooHigh` for every caller. -/
theorem updatePlatformFee_unauthorized_cx :
    (1000 : Nat) < 1001 ∧
    updatePlatformFee (initState 1) 5 1001 0 = .error .Unauthorized ∧
    updatePlatformFee (initState 1) 5 1001 0 ≠ .error .FeeRateTooHigh := by
  refine ⟨by decide, rfl, fun h => ?_⟩
  rw [show updatePlatformFee (initState 1) 5 1001 0 =
      .error .Unauthorized from rfl] at h
  injection h with h
  exact MarketError.noConfusion h

/-- Claim C8 (amended): `updatePlatformFee(newFee)` with `newFee > 1000`
always fails and leaves the fee schedule unchanged — with `FeeRateTooHigh`
when the caller is the administrator and with `Unauthorized` otherwise —
and with `newFee <= 1000` it always succeeds when the caller is the
administrator, updating the rate and emitting `PlatformFeeUpdated` with the
old and new values. -/
theorem updatePlatformFee_cap (s : MarketState) (sender newFee ts : Nat) :
    (1000 < newFee →
      updatePlatformFee s sender newFee ts =
        .error (if sender = s.owner then .FeeRateTooHigh else .Unauthorized)) ∧
    (newFee ≤ 1000 → sender = s.owner →
      updatePlatformFee s sender newFee ts =
        .ok ({ s with platformFee := newFee },
              [.PlatformFeeUpdated s.platformFee newFee ts])) := by
  constructor
  · intro hgt
    by_cases hown : sender = s.owner
    · simp [updatePlatformFee, hown, hgt]
    · simp [updatePlatformFee, hown]
  · intro hle hown
    simp [updatePlatformFee, hown, Nat.not_lt.mpr hle]

/-- Witness for `updatePlatformFee_cap`: on a fresh deployment by actor 1,
the administrator calling `updatePlatformFee(1001)` fails with `FeeRateTooHigh`
and `updatePlatformFee(1000)` succeeds. -/
theorem updatePlatformFee_cap_witness :
    ((1000 : Nat) < 1001 ∧
      updatePlatformFee (initState 1) 1 1001 0 =
        .error (if 1 = (initState 1).owner then .FeeRateTooHigh
                else .Unauthorized)) ∧
    ((1000 : Nat) ≤ 1000 ∧ 1 = (initState 1).owner ∧
      updatePlatformFee (initState 1) 1 1000 0 =
        .ok ({ initState 1 with platformFee := 1000 },
              [.PlatformFeeUpdated (initState 1).platformFee 1000 0])) :=
  ⟨⟨by decide, (updatePlatformFee_cap (initState 1) 1 1001 0).1 (by decide)⟩,
    ⟨by decide, rfl,
      (updatePlatformFee_cap (initState 1) 1 1000 0).2 (by decide) rfl⟩⟩

/-- Counterexample to claim C9: at `price = 0` with the unrecognized kind
tag 2, `listItem` rejects with `InvalidPrice` (the price check runs first),
not with `InvalidItemKind` — so "rejects with `InvalidItemKind` if and only
if the kind tag is invalid" fails in the only-if direction. -/
theorem listItem_invalid_kind_cx :
    ¬((2 : Nat) = 0 ∨ (2 : Nat) = 1) ∧
    listItem (initState 1) 5 "cid" 0 2 7 = .error .InvalidPrice ∧
    listItem (initState 1) 5 "cid" 0 2 7 ≠ .error .InvalidItemKind := by
  refine ⟨by decide, rfl, fun h => ?_⟩
  rw [show listItem (initState 1) 5 "cid" 0 2 7 =
      .error .InvalidPrice from rfl] at h
  injection h with h
  exact MarketError.noConfusion h

/-- Claim C9 (amended): `listItem` rejects with `InvalidPrice` iff
`price = 0`; it rejects with `InvalidItemKind` iff `price > 0` and the kind
tag is neither Model(0) nor Dataset(1); in all remaining cases — for every
`contentLocator` string, including the empty one — it succeeds and stores a
new active listing under the next id. -/
theorem listItem_validation (s : MarketState) (sender : Nat) (cid : String)
    (price itemType ts : Nat) :
    (listItem s sender cid price itemType ts = .error .InvalidPrice ↔
      price = 0) ∧
    (listItem s sender cid price itemType ts = .error .InvalidItemKind ↔
      (0 < price ∧ ¬(itemType = 0 ∨ itemType = 1))) ∧
    (0 < price → (itemType = 0 ∨ itemType = 1) →
      listItem s sender cid price itemType ts =
        .ok ({ s with
                listingCount := s.listingCount + 1
                listings := fun i =>
                  if i = s.listingCount + 1 then
                    { contentCID := cid, price := price, seller := sender
                      itemType := itemType, active := true, timestamp := ts }
                  else s.listings i },
              s.listingCount + 1,
              [.ItemListed (s.listingCount + 1) sender cid price itemType ts])) := by
  by_cases hp : price = 0
  · subst hp
    simp [listItem]
  · by_cases hk : itemType = 0 ∨ itemType = 1
    · simp [listItem, hp, hk, Nat.pos_of_ne_zero hp]
    · simp [listItem, hp, hk, Nat.pos_of_ne_zero hp]

/-- Witness for `listItem_validation`: an empty content locator with a
positive price and kind Dataset(1) succeeds and stores the listing at id 1. -/
theorem listItem_validation_witness :
    ((0 : Nat) < 5 ∧ ((1 : Nat) = 0 ∨ (1 : Nat) = 1)) ∧
    listItem (initState 1) 9 "" 5 1 7 =
      .ok ({ initState 1 with
              listingCount := (initState 1).listingCount + 1
              listings := fun i =>
                if i = (initState 1).listingCount + 1 then
                  { contentCID := "", price := 5, seller := 9
                    itemType := 1, active := true, timestamp := 7 }
                else (initState 1).listings i },
            (initState 1).listingCount + 1,
            [.ItemListed ((initState 1).listingCount + 1) 9 "" 5 1 7]) :=
  ⟨⟨by decide, by decide⟩,
    (listItem_validation (initState 1) 9 "" 5 1 7).2.2 (by decide) (by decide)⟩

/-- Claim C10: in every successful `buyItem` call the transfer list contains
the unconditional seller payout, the fee transfer exactly when the fee is
positive, and the refund exactly when the payment strictly exceeds the
price; with `payment = price` and `fee = 0`, the only outbound transfer is
the seller payout; and every outbound transfer carries a strictly positive
amount.  The hypotheses hold in every reachable state: the fee cap by
`runOps_platformFee_le`, and a positive stored price because `listItem`
rejects `price = 0` (see `listItem_ok_inv`). -/
theorem buyItem_no_zero_transfers (env : Nat → Nat → Bool) (s : MarketState)
    (sender payment listingId ts : Nat) (s' : MarketState)
    (tr : List (Nat × Nat)) (ev : List MarketEvent)
    (hcap : s.platformFee ≤ 1000)
    (hpos : 0 < (s.listings listingId).price)
    (h : buyItem env s sender payment listingId ts = .ok (s', tr, ev)) :
    tr.length = 1 +
        (if 0 < (s.listings listingId).price * s.platformFee / 10000 then 1 else 0) +
        (if (s.listings listingId).price < payment then 1 else 0) ∧
    (payment = (s.listings listingId).price →
      (s.listings listingId).price * s.platformFee / 10000 = 0 →
      tr = [((s.listings listingId).seller, (s.listings listingId).price)]) ∧
    ∀ p ∈ tr, 0 < p.2 := by
  obtain ⟨-, -, -, -, hple, -, -, htr, -⟩ := buyItem_ok_inv h
  set price := (s.listings listingId).price with hprice
  set fee := price * s.platformFee / 10000 with hfee
  have hfeelt : fee < price := by
    have h1 : fee ≤ price * 1000 / 10000 :=
      Nat.div_le_div_right (Nat.mul_le_mul_left price hcap)
    have h2 : price * 1000 / 10000 < price := by
      rw [Nat.div_lt_iff_lt_mul (by norm_num)]
      exact mul_lt_mul_of_pos_left (by norm_num) hpos
    exact lt_of_le_of_lt h1 h2
  refine ⟨?_, ?_, ?_⟩
  · rw [htr]
    by_cases h1 : 0 < fee <;> by_cases h2 : price < payment <;> simp [h1, h2]
  · intro hpay hfee0
    rw [htr, hfee0]
    simp [hpay]
  · intro p hp
    rw [htr] at hp
    simp only [List.mem_cons, List.mem_append] at hp
    rcases hp with rfl | hp
    · exact Nat.sub_pos_of_lt hfeelt
    · rcases hp with hp | hp
      · by_cases h1 : 0 < fee
        · rw [if_pos h1] at hp
          simp only [List.mem_singleton] at hp
          subst hp
          exact h1
        · rw [if_neg h1] at hp
          exact absurd hp (List.not_mem_nil _)
      · by_cases h2 : price < payment
        · rw [if_pos h2] at hp
          simp only [List.mem_singleton] at hp
          subst hp
          exact Nat.sub_pos_of_lt h2
        · rw [if_neg h2] at hp
          exact absurd hp (List.not_mem_nil _)

/-- Witness for `buyItem_no_zero_transfers`: after the administrator sets
the fee rate to 0, buying listing 1 with payment equal to the price makes a
single outbound transfer — the seller payout of 500 — and it is positive. -/
theorem buyItem_no_zero_transfers_witness :
    ((runOps (initState 1)
          [.listOp 5 "cid" 500 0 7, .feeOp 1 0 8]).platformFee ≤ 1000 ∧
      0 < ((runOps (initState 1)
          [.listOp 5 "cid" 500 0 7, .feeOp 1 0 8]).listings 1).price ∧
      buyItem (fun _ _ => true)
          (runOps (initState 1) [.listOp 5 "cid" 500 0 7, .feeOp 1 0 8])
          9 500 1 9 =
        .ok ({ buyItemInterState
                  (runOps (initState 1) [.listOp 5 "cid" 500 0 7, .feeOp 1 0 8]) 1
                with entered := false },
              [(5, 500)], [.ItemPurchased 1 9 5 500 9])) ∧
    ∀ p ∈ [((5 : Nat), (500 : Nat))], 0 < p.2 := by
  have hcap : (runOps (initState 1)
      [.listOp 5 "cid" 500 0 7, .feeOp 1 0 8]).platformFee ≤ 1000 := by decide
  have hpos : 0 < ((runOps (initState 1)
      [.listOp 5 "cid" 500 0 7, .feeOp 1 0 8]).listings 1).price := by decide
  have h : buyItem (fun _ _ => true)
      (runOps (initState 1) [.listOp 5 "cid" 500 0 7, .feeOp 1 0 8])
      9 500 1 9 =
      .ok ({ buyItemInterState
                (runOps (initState 1) [.listOp 5 "cid" 500 0 7, .feeOp 1 0 8]) 1
              with entered := false },
            [(5, 500)], [.ItemPurchased 1 9 5 500 9]) := rfl
  exact ⟨⟨hcap, hpos, h⟩,
    (buyItem_no_zero_transfers (fun _ _ => true)
        (runOps (initState 1) [.listOp 5 "cid" 500 0 7, .feeOp 1 0 8])
        9 500 1 9 _ _ _ hcap hpos h).2.2⟩
